import Mathlib

/-!
Shallow embedding of the video-transcriber backend (Express/Node service).

The repository contains several iterations of the same server:
* `server.js` (first section): synchronous `/api/transcribe` with chunking,
  five-signature retry classifier;
* `src/unnamed/part_002`: upload registry with a 2-hour TTL and periodic sweep,
  job registry, background `processJob` (single-file only), four-signature
  retry classifier, progress reset to 0 on error;
* `src/unnamed/part_003`: background `processJob` with the duration branch
  (single file vs 300-second chunks, 24-chunk cap), five-signature retry
  classifier, `setJob`/`setProgress` helpers;
* `src/unnamed/part_004`: duration branch, single-file path only.

External effects (ffmpeg, ffprobe, the transcription API, the wall clock) are
passed in as explicit outcomes (`Except`), so every function here is the pure
control-flow skeleton of the corresponding JS function.  JS numbers are
modelled as `ℚ`, JS strings as Lean `String`s, and the JS `Map`s backing the
registries as association lists with `Map.get`/`Map.set` semantics.
-/

namespace VTB

/-! ### JS string primitives

`String.prototype.includes / startsWith / endsWith` and the default
`Array.prototype.sort()` comparison (lexicographic by code unit; all names
compared here are ASCII, so code-unit order is code-point order). -/

/-- Whether `p` is a prefix of `l` (character lists). -/
def strHasPrefixData : List Char → List Char → Bool
  | [], _ => true
  | _ :: _, [] => false
  | a :: ps, b :: ls => decide (a = b) && strHasPrefixData ps ls

/-- Whether `needle` occurs as a contiguous substring of the second argument. -/
def hasSubstrData (needle : List Char) : List Char → Bool
  | [] => needle.isEmpty
  | c :: rest => strHasPrefixData needle (c :: rest) || hasSubstrData needle rest

/-- JS `msg.includes(sig)`. -/
def jsIncludes (msg sig : String) : Bool := hasSubstrData sig.data msg.data

/-- JS `s.startsWith(p)`. -/
def jsStartsWith (s p : String) : Bool := strHasPrefixData p.data s.data

/-- JS `s.endsWith(p)`. -/
def jsEndsWith (s p : String) : Bool := strHasPrefixData p.data.reverse s.data.reverse

/-- Lexicographic code-unit comparison used by JS `<` on strings and by the
default `Array.prototype.sort()` comparator. -/
def lexLtData : List Char → List Char → Bool
  | _, [] => false
  | [], _ :: _ => true
  | a :: as, b :: bs =>
    decide (a.toNat < b.toNat) || (decide (a.toNat = b.toNat) && lexLtData as bs)

/-- The (total) `≤` comparator handed to `mergeSort` to model the default
JS `Array.prototype.sort()` (ascending lexicographic). -/
def jsSortLe (a b : String) : Bool := !lexLtData b.data a.data

/-- Model of `files.sort()` in `splitAudioIntoChunks`. -/
def sortFiles (files : List String) : List String := files.mergeSort jsSortLe

/-- JS `Math.round` on an exact rational: round half towards positive
infinity.  (All values rounded in this program are non-negative.) -/
def jsRound (q : ℚ) : ℤ := ⌊q + 1 / 2⌋

/-! ### Retry policy (`withRetry`)

`server.js`, `part_003` and `part_004` classify five transient signatures;
`part_002` omits `"APIConnectionError"`.  An operation is modelled as a map
from the attempt index to that attempt's outcome; `withRetryCount` returns the
final outcome together with the number of attempts actually made. -/

/-- Transient-error classifier of `withRetry` in `server.js` lines 52–57
(same in `part_003` lines 134–139 and `part_004` lines 79–84). -/
def retryable (msg : String) : Bool :=
  jsIncludes msg "ECONNRESET" || jsIncludes msg "ETIMEDOUT" ||
  jsIncludes msg "EAI_AGAIN" || jsIncludes msg "socket hang up" ||
  jsIncludes msg "APIConnectionError"

/-- Transient-error classifier of `withRetry` in `part_002` lines 55–59:
only four signatures, no `"APIConnectionError"`. -/
def retryableP2 (msg : String) : Bool :=
  jsIncludes msg "ECONNRESET" || jsIncludes msg "ETIMEDOUT" ||
  jsIncludes msg "EAI_AGAIN" || jsIncludes msg "socket hang up"

/-- The `for (let i = 0; i < tries; i++)` loop of `withRetry`.  `fuel` is
`tries - i`, the number of loop iterations left.  The second component counts
the attempts (invocations of `op`) made.  The `fuel = 0` case models falling
out of the loop without any iteration (`tries ≤ 0`), where the JS code throws
the never-assigned `lastErr`. -/
def withRetryGo (rf : String → Bool) (op : Nat → Except String String) (tries : Nat) :
    Nat → Nat → Except String String × Nat
  | 0, _ => (.error "lastErr is undefined", 0)
  | fuel + 1, i =>
    match op i with
    | .ok v => (.ok v, 1)
    | .error e =>
      if !rf e || i = tries - 1 then (.error e, 1)
      else
        let r := withRetryGo rf op tries fuel (i + 1)
        (r.1, r.2 + 1)

/-- The call `withRetry(fn, tries)` with classifier `rf`, instrumented with the number
of attempts made. -/
def withRetryCount (rf : String → Bool) (op : Nat → Except String String)
    (tries : Nat) : Except String String × Nat :=
  withRetryGo rf op tries tries 0

/-- The `withRetry` of `server.js` / `part_003` / `part_004` (five signatures). -/
def withRetry (op : Nat → Except String String) (tries : Nat) :
    Except String String × Nat :=
  withRetryCount retryable op tries

/-- The `withRetry` of `part_002` (four signatures). -/
def withRetryP2 (op : Nat → Except String String) (tries : Nat) :
    Except String String × Nat :=
  withRetryCount retryableP2 op tries

/-! ### Association-list model of a JS `Map` -/

/-- JS `Map.get`: value stored at `k`, if any. -/
def mapGet {α : Type} (k : String) : List (String × α) → Option α
  | [] => none
  | kv :: rest => if kv.1 = k then some kv.2 else mapGet k rest

/-- JS `Map.set`: update in place if the key exists, otherwise append. -/
def mapSet {α : Type} (k : String) (v : α) : List (String × α) → List (String × α)
  | [] => [(k, v)]
  | kv :: rest => if kv.1 = k then (k, v) :: rest else kv :: mapSet k v rest

/-- The keys of the registry, in insertion order. -/
def keysOf {α : Type} (m : List (String × α)) : List String := m.map (·.1)

/-! ### Upload registry (`part_002` lines 20–25, 133–141, 163–192) -/

/-- Source `const UPLOAD_TTL_MS = 2 * 60 * 60 * 1000` (2 hours). -/
def UPLOAD_TTL_MS : Nat := 2 * 60 * 60 * 1000

/-- An entry of the `uploads` map: `{ path, originalName, createdAt }`. -/
structure UploadRec where
  path : String
  originalName : String
  createdAt : Nat
deriving Repr, DecidableEq

/-- The `setInterval` sweep (`part_002` lines 133–141): delete every record
with `now - u.createdAt > UPLOAD_TTL_MS`.  (JS number subtraction is negative
when `now < createdAt`, hence never `> TTL`; `Nat` subtraction truncates to 0
then, with the same outcome.) -/
def sweepUploads (now : Nat) (ups : List (String × UploadRec)) :
    List (String × UploadRec) :=
  ups.filter fun kv => !(decide (UPLOAD_TTL_MS < now - kv.2.createdAt))

/-- The lookup performed by `POST /api/jobs` (`part_002` line 191):
`uploads.get(uploadId)`, with no freshness check of its own. -/
def resolveUpload (uploadId : String) (ups : List (String × UploadRec)) :
    Option UploadRec :=
  mapGet uploadId ups

/-! ### Job registry and patches (`part_003`) -/

/-- The `progress` record (pct, step, message) of a `part_003` job. -/
structure Progress where
  pct : ℚ
  step : String
  message : String
deriving Repr, DecidableEq

/-- A `part_003` job record. -/
structure Job where
  id : String
  status : String
  progress : Progress
  resultText : String
  error : String
  createdAt : Nat
deriving Repr, DecidableEq

/-- A partial update (the object-spread patch passed to `setJob`). -/
structure JobPatch where
  status : Option String := none
  progress : Option Progress := none
  resultText : Option String := none
  error : Option String := none
deriving Repr, DecidableEq

/-- Spread merge of `j` and `patch`: fields present in the patch win. -/
def applyPatch (j : Job) (p : JobPatch) : Job :=
  { j with
    status := p.status.getD j.status
    progress := p.progress.getD j.progress
    resultText := p.resultText.getD j.resultText
    error := p.error.getD j.error }

/-- The `setJob` helper (`part_003` lines 164–168): look the job up, return silently if
absent, otherwise store the spread-merge. -/
def setJob (jobId : String) (patch : JobPatch) (jobs : List (String × Job)) :
    List (String × Job) :=
  match mapGet jobId jobs with
  | none => jobs
  | some j => mapSet jobId (applyPatch j patch) jobs

/-- The `setProgress` helper (`part_003` lines 170–172). -/
def setProgress (jobId : String) (pct : ℚ) (step message : String)
    (jobs : List (String × Job)) : List (String × Job) :=
  setJob jobId { progress := some ⟨pct, step, message⟩ } jobs

/-- The record inserted by `POST /api/jobs` (`part_003` lines 208–215). -/
def newJob (jobId : String) (now : Nat) : Job :=
  { id := jobId, status := "queued", progress := ⟨0, "queued", "Queued"⟩,
    resultText := "", error := "", createdAt := now }

/-! ### Chunk files (`splitAudioIntoChunks`, `part_003` lines 98–124)

ffmpeg's `-f segment` with pattern `chunk_%03d.mp3` writes
`chunk_000.mp3, chunk_001.mp3, ...` into a fresh directory; the JS code then
lists the directory, keeps the `chunk_*.mp3` names and sorts them.  The
directory listing is modelled in index order (the sort makes the enumeration
order irrelevant, which is what the claims are about). -/

/-- The digits printed by the `%03d` pattern: zero-padded to width 3, all
decimal digits when the index needs more than three. -/
def pad3Data (i : Nat) : List Char :=
  if i < 1000 then
    [Nat.digitChar (i / 100), Nat.digitChar (i / 10 % 10), Nat.digitChar (i % 10)]
  else Nat.toDigits 10 i

/-- Characters of the `i`-th chunk file name. -/
def chunkNameData (i : Nat) : List Char :=
  "chunk_".data ++ pad3Data i ++ ".mp3".data

/-- The `i`-th chunk file name, `chunk_%03d.mp3`. -/
def chunkName (i : Nat) : String := String.mk (chunkNameData i)

/-- The splitter `splitAudioIntoChunks`: run ffmpeg (outcome supplied), then list, filter
and sort the produced file names; throw if none were produced.  `numFiles` is
the number of segment files ffmpeg wrote. -/
def splitAudioIntoChunks (ffmpegRun : Except String Unit) (numFiles : Nat) :
    Except String (List String) :=
  match ffmpegRun with
  | .error e => .error e
  | .ok _ =>
    let files := sortFiles ((((List.range numFiles).map chunkName)).filter
      fun f => jsStartsWith f "chunk_" && jsEndsWith f ".mp3")
    if files.length = 0 then .error "Chunking produced no output files."
    else .ok files

/-! ### `getDurationSeconds` (`part_003` lines 87–96) -/

/-- The probe `getDurationSeconds`: if `ffprobe` itself fails, the rejection
propagates (`.error`); if it succeeds, its stdout is parsed and a non-finite
parse yields `null` (`none`).  `parseNum` models
`Number(String(stdout).trim())` filtered through `Number.isFinite`. -/
def getDurationSeconds (ffprobeRun : Except String String)
    (parseNum : String → Option ℚ) : Except String (Option ℚ) :=
  match ffprobeRun with
  | .error e => .error e
  | .ok out => .ok (parseNum out)

/-- The branch condition of `part_003` line 255 (`part_004` line 138):
`!dur || dur <= 600`.  `none` is `null` (falsy); `0` is falsy too. -/
def durationBranch : Option ℚ → Bool
  | none => true
  | some d => decide (d = 0) || decide (d ≤ 600)

/-! ### Background worker `processJob` (`part_003` lines 240–305) -/

/-- Source `const MAX_CHUNKS = 24` — 2-hour safety cap. -/
def MAX_CHUNKS : Nat := 24

/-- Segment length handed to the splitter (`part_003` line 267). -/
def SEGMENT_SECONDS : Nat := 300

/-- Outcomes of the external effects one run of `processJob` performs. -/
structure PipelineEnv where
  /-- Outcome of `extractAudioToMp3` (ffmpeg). -/
  extract : Except String Unit
  /-- Outcome of the ffprobe `run` call (stdout on success). -/
  ffprobeRun : Except String String
  /-- Model of `Number(String(stdout).trim())` under the `Number.isFinite` filter. -/
  parseNum : String → Option ℚ
  /-- Outcome of `transcribeMp3File(mp3Path)` on the whole artifact. -/
  transcribeWhole : Except String String
  /-- The splitter's ffmpeg run outcome. -/
  ffmpegSegment : Except String Unit
  /-- Number of chunk files the splitter's ffmpeg run wrote. -/
  numChunkFiles : Nat
  /-- Outcome of `transcribeMp3File` per chunk file name. -/
  transcribeChunk : String → Except String String

/-- A `setProgress` patch. -/
def progressPatch (pct : ℚ) (step message : String) : JobPatch :=
  { progress := some ⟨pct, step, message⟩ }

/-- The formula `55 + Math.round(40 * (i / used.length))` (`part_003` line 274). -/
def pctChunk (i n : Nat) : ℚ := 55 + (jsRound (40 * ((i : ℚ) / (n : ℚ))) : ℚ)

/-- The per-chunk progress message (`part_003` line 275). -/
def chunkMsg (i n : Nat) : String :=
  "Transcribing chunk " ++ toString (i + 1) ++ " of " ++ toString n ++ "…"

/-- The message of the single-file upload step (`part_003` line 256):
`Math.round(dur || 0)` seconds. -/
def uploadMsg (dur : Option ℚ) : String :=
  "Uploading audio to OpenAI… (" ++ toString (jsRound (dur.getD 0)) ++ "s)"

/-- The chunk-transcription `for` loop (`part_003` lines 273–278): one
progress patch per iteration, stitching `full += (i === 0 ? "" : "\n\n") +
part`, aborting on the first failed transcription.  `n` is `used.length`. -/
def chunkLoop (tc : String → Except String String) (n : Nat) :
    List String → Nat → String → List JobPatch × Except String String
  | [], _, full => ([], .ok full)
  | f :: fs, i, full =>
    let p := progressPatch (pctChunk i n) "transcribe" (chunkMsg i n)
    match tc f with
    | .error e => ([p], .error e)
    | .ok part =>
      let r := chunkLoop tc n fs (i + 1) (full ++ (if i = 0 then "" else "\n\n") ++ part)
      (p :: r.1, r.2)

/-- The truncation note appended when the cap was hit (`part_003` line 281). -/
def truncationNotice : String :=
  "\n\n[Note: truncated after " ++ toString (MAX_CHUNKS * 5) ++
    " minutes due to server limits.]"

/-- The `try` block of `processJob`: the `setJob`/`setProgress` patches it
issues, in order, and whether it returned normally or threw. -/
def processJobBody (env : PipelineEnv) : List JobPatch × Except String Unit :=
  let start : List JobPatch :=
    [{ status := some "processing" },
     progressPatch 10 "extract" "Extracting audio from your video…"]
  match env.extract with
  | .error e => (start, .error e)
  | .ok _ =>
    match getDurationSeconds env.ffprobeRun env.parseNum with
    | .error e => (start, .error e)
    | .ok dur =>
      if durationBranch dur then
        let ps := start ++ [progressPatch 55 "upload" (uploadMsg dur)]
        match env.transcribeWhole with
        | .error e => (ps, .error e)
        | .ok text =>
          (ps ++ [progressPatch 100 "done" "Done",
                  { status := some "done", resultText := some text }], .ok ())
      else
        let ps := start ++ [progressPatch 35 "chunk" "Splitting long audio into chunks…"]
        match splitAudioIntoChunks env.ffmpegSegment env.numChunkFiles with
        | .error e => (ps, .error e)
        | .ok chunkFiles =>
          let used := chunkFiles.take MAX_CHUNKS
          let r := chunkLoop env.transcribeChunk used.length used 0 ""
          match r.2 with
          | .error e => (ps ++ r.1, .error e)
          | .ok full =>
            let full2 :=
              if MAX_CHUNKS < chunkFiles.length then full ++ truncationNotice else full
            (ps ++ r.1 ++ [progressPatch 100 "done" "Done",
                           { status := some "done", resultText := some full2 }], .ok ())

/-- All patches one run of `processJob` issues: the `try` block's patches,
plus the `catch` block's error patch (`part_003` lines 286–291 — note it does
not touch `progress`). -/
def processJobPatches (env : PipelineEnv) : List JobPatch :=
  match processJobBody env with
  | (ps, .ok _) => ps
  | (ps, .error e) => ps ++ [{ status := some "error", error := some e }]

/-- Applying a run's patches to a job record (`{ ...j, ...patch }` in order). -/
def applyPatches (j : Job) (ps : List JobPatch) : Job := ps.foldl applyPatch j

/-- The job record after one run of `processJob`, starting from `j`. -/
def processJobFinal (env : PipelineEnv) (j : Job) : Job :=
  applyPatches j (processJobPatches env)

/-- The registry after one run of `processJob` against job `jobId`: every
mutation goes through `setJob`. -/
def runProcessJob (jobId : String) (env : PipelineEnv)
    (jobs : List (String × Job)) : List (String × Job) :=
  (processJobPatches env).foldl (fun m p => setJob jobId p m) jobs

/-- The `step` recorded by a patch, if it carries a progress update. -/
def patchStep (p : JobPatch) : Option String := p.progress.map (·.step)

/-- Whether some patch in the list records progress at stage `step`. -/
def hasStep (step : String) (ps : List JobPatch) : Bool :=
  ps.any fun p => (patchStep p).any (· == step)

/-- The successive progress percentages a poller can observe during one run
(one entry per patch that carries a progress update). -/
def pctTrace (ps : List JobPatch) : List ℚ :=
  ps.filterMap fun p => p.progress.map (·.pct)

/-! ### Background worker of `part_002` (lines 227–266)

`part_002` registry values are JS objects whose shape can vary (the terminal
writes spread `jobs.get(jobId)`, which may be `undefined`), so they are
modelled as all-optional records. -/

/-- The `progress` record (pct, message) of a `part_002` job. -/
structure Progress2 where
  pct : ℚ
  message : String
deriving Repr, DecidableEq

/-- A `part_002` registry value: a JS object, every field possibly absent. -/
structure JobObj2 where
  id : Option String := none
  status : Option String := none
  progress : Option Progress2 := none
  resultText : Option String := none
  error : Option String := none
deriving Repr, DecidableEq

/-- Spread merge of `part_002` objects: fields present in `p` win. -/
def spreadMerge2 (j p : JobObj2) : JobObj2 :=
  { id := p.id <|> j.id, status := p.status <|> j.status,
    progress := p.progress <|> j.progress,
    resultText := p.resultText <|> j.resultText, error := p.error <|> j.error }

/-- One registry write of the `part_002` worker.  `guarded` is
`setProgress`/`setStatus` (lines 228–238: look up, return if absent, else
spread-merge); `raw` is a direct `jobs.set(jobId, { ...jobs.get(jobId), ... })`
(lines 253–254 and the catch block), which spreads `undefined` to `{}` when
the job is absent. -/
inductive Update2 where
  | guarded (patch : JobObj2)
  | raw (patch : JobObj2)
deriving Repr, DecidableEq

/-- Apply one `part_002` registry write. -/
def applyUpdate2 (jobId : String) (m : List (String × JobObj2)) :
    Update2 → List (String × JobObj2)
  | .guarded p =>
    match mapGet jobId m with
    | none => m
    | some j => mapSet jobId (spreadMerge2 j p) m
  | .raw p =>
    mapSet jobId (spreadMerge2 ((mapGet jobId m).getD {}) p) m

/-- External-effect outcomes of one `part_002` `processJob` run. -/
structure EnvP2 where
  extract : Except String Unit
  transcribe : Except String String

/-- The catch-block write of `part_002` (lines 256–262): status `error`,
the error text, progress reset to `{ pct: 0, message: "Error" }`. -/
def errUpdate2 (e : String) : Update2 :=
  .raw { status := some "error", error := some e, progress := some ⟨0, "Error"⟩ }

/-- The sequence of registry writes of one `part_002` `processJob` run. -/
def processJobUpdatesP2 (env : EnvP2) : List Update2 :=
  let start : List Update2 :=
    [.guarded { status := some "processing" },
     .guarded { progress := some ⟨10, "Extracting audio…"⟩ }]
  match env.extract with
  | .error e => start ++ [errUpdate2 e]
  | .ok _ =>
    let ps := start ++ [Update2.guarded { progress := some ⟨55, "Uploading audio to OpenAI…"⟩ }]
    match env.transcribe with
    | .error e => ps ++ [errUpdate2 e]
    | .ok text =>
      ps ++ [.guarded { progress := some ⟨100, "Done"⟩ },
             .raw { status := some "done", resultText := some text }]

/-- The error thrown by a `part_002` run, if any. -/
def pipelineErrP2 (env : EnvP2) : Option String :=
  match env.extract with
  | .error e => some e
  | .ok _ =>
    match env.transcribe with
    | .error e => some e
    | .ok _ => none

/-- The `part_002` registry after one `processJob` run. -/
def runProcessJobP2 (jobId : String) (env : EnvP2)
    (m : List (String × JobObj2)) : List (String × JobObj2) :=
  (processJobUpdatesP2 env).foldl (applyUpdate2 jobId) m

/-- Progress percentages observable during a `part_002` run. -/
def pctTraceP2 (us : List Update2) : List ℚ :=
  us.filterMap fun u =>
    match u with
    | .guarded p => p.progress.map (·.pct)
    | .raw p => p.progress.map (·.pct)

/-- The record inserted by `part_002`'s `POST /api/jobs` (lines 195–201). -/
def newJobObjP2 (jobId : String) : JobObj2 :=
  { id := some jobId, status := some "queued", progress := some ⟨0, "Queued"⟩,
    resultText := some "", error := some "" }

/-! ### The claim-side join

Claim C2 states the stitched text as
`t_0 ++ "\n\n" ++ t_1 ++ ... ++ "\n\n" ++ t_(n-1)`; this is that expression,
written as a recursion. -/

/-- Ordered concatenation joined by a blank line. -/
def blankLineJoin : List String → String
  | [] => ""
  | [t] => t
  | t :: ts => t ++ "\n\n" ++ blankLineJoin ts

/-! ### Concrete runs used by counterexamples and witnesses -/

/-- A run whose audio extraction (ffmpeg) fails. -/
def extractFailEnv : PipelineEnv :=
  { extract := .error "ffmpeg exited with code 1", ffprobeRun := .ok "",
    parseNum := fun _ => none, transcribeWhole := .ok "",
    ffmpegSegment := .ok (), numChunkFiles := 0, transcribeChunk := fun _ => .ok "" }

/-- A run whose `ffprobe` invocation itself errors (the `run` promise
rejects). -/
def probeFailEnv : PipelineEnv :=
  { extract := .ok (), ffprobeRun := .error "ffprobe exited with code 1",
    parseNum := fun _ => none, transcribeWhole := .ok "text",
    ffmpegSegment := .ok (), numChunkFiles := 1, transcribeChunk := fun _ => .ok "text" }

/-- A run whose probe output does not parse as a finite number. -/
def probeNaNEnv : PipelineEnv :=
  { extract := .ok (), ffprobeRun := .ok "N/A", parseNum := fun _ => none,
    transcribeWhole := .ok "text", ffmpegSegment := .ok (), numChunkFiles := 1,
    transcribeChunk := fun _ => .ok "text" }

/-- A fully successful chunked run: probed duration `d` (supplied), `k` chunk
files, deterministic per-chunk transcripts `tr`. -/
def chunkedRunEnv (tr : String → String) (k : Nat) (d : ℚ) : PipelineEnv :=
  { extract := .ok (), ffprobeRun := .ok (toString d),
    parseNum := fun _ => some d, transcribeWhole := .error "unused",
    ffmpegSegment := .ok (), numChunkFiles := k,
    transcribeChunk := fun f => .ok (tr f) }

/-- A `part_002` run whose audio extraction fails. -/
def extractFailEnvP2 : EnvP2 := { extract := .error "boom", transcribe := .ok "" }

/-- A fully successful `part_002` run. -/
def okEnvP2 : EnvP2 := { extract := .ok (), transcribe := .ok "t" }

/-! ## Theorems -/

/-! ### Substring matching -/

theorem strHasPrefixData_iff (p l : List Char) :
    strHasPrefixData p l = true ↔ p <+: l := by
  induction p generalizing l with
  | nil => simp [strHasPrefixData]
  | cons a ps ih =>
    cases l with
    | nil => simp [strHasPrefixData]
    | cons b ls => simp [strHasPrefixData, List.cons_prefix_cons, ih, and_comm]

theorem hasSubstrData_iff (needle hay : List Char) :
    hasSubstrData needle hay = true ↔ needle <:+: hay := by
  induction hay with
  | nil => simp [hasSubstrData, List.isEmpty_iff]
  | cons c rest ih =>
    simp [hasSubstrData, ih, strHasPrefixData_iff, List.infix_cons_iff]

theorem jsIncludes_iff (msg sig : String) :
    jsIncludes msg sig = true ↔ sig.data <:+: msg.data :=
  hasSubstrData_iff _ _

/-! ### Retry policy -/

theorem withRetryGo_succ_eq (rf : String → Bool) (op : Nat → Except String String)
    (tries f i : Nat) :
    withRetryGo rf op tries (f + 1) i =
      match op i with
      | .ok v => (.ok v, 1)
      | .error e =>
        if !rf e || i = tries - 1 then (.error e, 1)
        else ((withRetryGo rf op tries f (i + 1)).1,
              (withRetryGo rf op tries f (i + 1)).2 + 1) := rfl

theorem withRetryGo_error_once (rf : String → Bool) (op : Nat → Except String String)
    (tries fuel i : Nat) (e : String) (hfuel : 1 ≤ fuel)
    (hop : op i = .error e) (hrf : rf e = false) :
    withRetryGo rf op tries fuel i = (.error e, 1) := by
  cases fuel with
  | zero => omega
  | succ f => rw [withRetryGo_succ_eq, hop]; simp [hrf]

theorem withRetryGo_all_error (rf : String → Bool) (op : Nat → Except String String)
    (tries : Nat) (e : String) (hop : ∀ n, op n = .error e) (hrf : rf e = true) :
    ∀ fuel i, fuel + i = tries → 1 ≤ fuel →
      withRetryGo rf op tries fuel i = (.error e, fuel) := by
  intro fuel
  induction fuel with
  | zero => omega
  | succ f ih =>
    intro i htries _
    rw [withRetryGo_succ_eq, hop i]
    cases f with
    | zero =>
      have hi : i = tries - 1 := by omega
      simp [hi]
    | succ f' =>
      have hi : ¬ i = tries - 1 := by omega
      have hrec := ih (i + 1) (by omega) (by omega)
      simp [hrf, hi, hrec]

theorem withRetryGo_success (rf : String → Bool) (op : Nat → Except String String)
    (tries : Nat) (v : String) :
    ∀ j fuel i, j + 1 ≤ fuel → fuel + i = tries → op (i + j) = .ok v →
      (∀ t, t < j → ∃ e, op (i + t) = .error e ∧ rf e = true) →
      withRetryGo rf op tries fuel i = (.ok v, j + 1) := by
  intro j
  induction j with
  | zero =>
    intro fuel i hj htries hop _
    rw [Nat.add_zero] at hop
    cases fuel with
    | zero => omega
    | succ f => rw [withRetryGo_succ_eq, hop]
  | succ j ih =>
    intro fuel i hj htries hop herr
    cases fuel with
    | zero => omega
    | succ f =>
      obtain ⟨e, hope, hrfe⟩ := herr 0 (by omega)
      rw [Nat.add_zero] at hope
      have hi : ¬ i = tries - 1 := by omega
      have hrec := ih f (i + 1) (by omega) (by omega)
        (by rw [show i + 1 + j = i + (j + 1) by omega]; exact hop)
        (by intro t ht
            have := herr (t + 1) (by omega)
            rwa [show i + (t + 1) = i + 1 + t by omega] at this)
      rw [withRetryGo_succ_eq, hope]
      simp [hrfe, hi, hrec]

/-- C4: `withRetry` invokes a (total, per-attempt deterministic) operation once
when it fails non-retryably, exactly `maxAttempts` times when every attempt
fails retryably, and returns the first successful attempt's value. -/
theorem c4_withRetry_attempt_counts (op : Nat → Except String String)
    (tries : Nat) (htries : 1 ≤ tries) :
    (∀ e, (∀ i, op i = .error e) → retryable e = false →
      withRetry op tries = (.error e, 1)) ∧
    (∀ e, (∀ i, op i = .error e) → retryable e = true →
      withRetry op tries = (.error e, tries)) ∧
    (∀ j v, j < tries → op j = .ok v →
      (∀ t, t < j → ∃ e, op t = .error e ∧ retryable e = true) →
      withRetry op tries = (.ok v, j + 1)) := by
  refine ⟨fun e hop hrf => ?_, fun e hop hrf => ?_, fun j v hj hop herr => ?_⟩
  · exact withRetryGo_error_once retryable op tries tries 0 e htries (hop 0) hrf
  · exact withRetryGo_all_error retryable op tries e hop hrf tries 0 (by omega) htries
  · exact withRetryGo_success retryable op tries v j tries 0 (by omega) (by omega)
      (by simpa using hop) (by simpa using herr)

/-- Witness for C4 at concrete operations and `maxAttempts = 3`. -/
theorem c4_witness :
    withRetry (fun _ => .error "bad request") 3 = (.error "bad request", 1) ∧
    withRetry (fun _ => .error "read ECONNRESET") 3 = (.error "read ECONNRESET", 3) ∧
    withRetry (fun i => if i = 0 then .error "ETIMEDOUT" else .ok "hi") 3 = (.ok "hi", 2) := by
  refine ⟨(c4_withRetry_attempt_counts _ 3 (by decide)).1 "bad request"
      (fun i => rfl) (by decide),
    (c4_withRetry_attempt_counts _ 3 (by decide)).2.1 "read ECONNRESET"
      (fun i => rfl) (by decide),
    (c4_withRetry_attempt_counts _ 3 (by decide)).2.2 1 "hi" (by decide) rfl ?_⟩
  intro t ht
  have h0 : t = 0 := by omega
  subst h0
  exact ⟨"ETIMEDOUT", rfl, by decide⟩

/-- C9 (corrected): a message containing one of the five transient
signatures — here the API-connection-error one — is classified retryable by
the `server.js`/`part_003`/`part_004` wrapper, but the `part_002` wrapper
does not classify it and gives up after a single attempt instead of
retrying. -/
theorem c9_counterexample :
    retryable "APIConnectionError: Connection error." = true ∧
    retryableP2 "APIConnectionError: Connection error." = false ∧
    withRetryP2 (fun _ => .error "APIConnectionError: Connection error.") 3 =
      (.error "APIConnectionError: Connection error.", 1) := by
  exact ⟨by decide, by decide, rfl⟩

/-- C9 (amended): the `server.js`/`part_003`/`part_004` classifier accepts
exactly the five transient signatures, retryable messages are retried while
attempts remain (all `maxAttempts` are used on persistent failure) and
unclassified messages are never retried; the `part_002` classifier accepts
only the four signatures without API-connection-error. -/
theorem c9_retry_classification (msg : String) (tries : Nat) (htries : 1 ≤ tries) :
    (retryable msg = true ↔
      ("ECONNRESET".data <:+: msg.data ∨ "ETIMEDOUT".data <:+: msg.data ∨
       "EAI_AGAIN".data <:+: msg.data ∨ "socket hang up".data <:+: msg.data ∨
       "APIConnectionError".data <:+: msg.data)) ∧
    (retryable msg = true →
      withRetry (fun _ => .error msg) tries = (.error msg, tries)) ∧
    (retryable msg = false →
      withRetry (fun _ => .error msg) tries = (.error msg, 1)) ∧
    (retryableP2 msg = true ↔
      ("ECONNRESET".data <:+: msg.data ∨ "ETIMEDOUT".data <:+: msg.data ∨
       "EAI_AGAIN".data <:+: msg.data ∨ "socket hang up".data <:+: msg.data)) := by
  refine ⟨?_, fun h => ?_, fun h => ?_, ?_⟩
  · simp [retryable, Bool.or_eq_true, jsIncludes_iff, or_assoc]
  · exact withRetryGo_all_error retryable _ tries msg (fun _ => rfl) h tries 0
      (by omega) htries
  · exact withRetryGo_error_once retryable _ tries tries 0 msg htries rfl h
  · simp [retryableP2, Bool.or_eq_true, jsIncludes_iff, or_assoc]

/-- Witness for C9's amended statement at `msg = "socket hang up"`,
`maxAttempts = 2`. -/
theorem c9_witness :
    (retryable "socket hang up" = true ↔
      ("ECONNRESET".data <:+: "socket hang up".data ∨
       "ETIMEDOUT".data <:+: "socket hang up".data ∨
       "EAI_AGAIN".data <:+: "socket hang up".data ∨
       "socket hang up".data <:+: "socket hang up".data ∨
       "APIConnectionError".data <:+: "socket hang up".data)) ∧
    (retryable "socket hang up" = true →
      withRetry (fun _ => .error "socket hang up") 2 = (.error "socket hang up", 2)) ∧
    (retryable "socket hang up" = false →
      withRetry (fun _ => .error "socket hang up") 2 = (.error "socket hang up", 1)) ∧
    (retryableP2 "socket hang up" = true ↔
      ("ECONNRESET".data <:+: "socket hang up".data ∨
       "ETIMEDOUT".data <:+: "socket hang up".data ∨
       "EAI_AGAIN".data <:+: "socket hang up".data ∨
       "socket hang up".data <:+: "socket hang up".data)) :=
  c9_retry_classification "socket hang up" 2 (by decide)

/-! ### Upload registry (C8) -/

theorem mapGet_eq_none {α : Type} (k : String) (m : List (String × α))
    (h : ∀ v, (k, v) ∉ m) : mapGet k m = none := by
  induction m with
  | nil => rfl
  | cons kv rest ih =>
    by_cases hk : kv.1 = k
    · exact absurd (by rw [← hk, Prod.mk.eta]; exact List.mem_cons_self kv rest) (h kv.2)
    · simpa [mapGet, hk] using ih fun v hv => h v (List.mem_cons_of_mem _ hv)

/-- An upload id issued at time 0, queried 1 ms after the TTL elapsed but
before any sweep ran. -/
def staleUploads : List (String × UploadRec) :=
  [("u1", { path := "/tmp/stored_uploads/u1_a.mp4", originalName := "a.mp4",
            createdAt := 0 })]

/-- C8 (corrected): the job-creation lookup applies no freshness check, so an
identifier whose 2-hour TTL has elapsed still resolves as long as the
periodic sweep has not yet purged it — the claim's "regardless of when the
periodic sweep last ran" fails. -/
theorem c8_counterexample :
    UPLOAD_TTL_MS < 7200001 - 0 ∧
    resolveUpload "u1" staleUploads =
      some { path := "/tmp/stored_uploads/u1_a.mp4", originalName := "a.mp4",
             createdAt := 0 } := by
  exact ⟨by decide, by decide⟩

/-- C8 (amended): resolving yields not-found for an identifier that was never
issued, and for an expired identifier once the sweep has run at a time past
its expiry; the observed TTL is 2 hours (7 200 000 ms). -/
theorem c8_upload_ttl (uploadId : String) (ups : List (String × UploadRec))
    (now : Nat) :
    ((∀ v, (uploadId, v) ∉ ups) → resolveUpload uploadId ups = none) ∧
    ((∀ v, (uploadId, v) ∈ ups → UPLOAD_TTL_MS < now - v.createdAt) →
      resolveUpload uploadId (sweepUploads now ups) = none) ∧
    UPLOAD_TTL_MS = 7200000 := by
  refine ⟨fun h => mapGet_eq_none _ _ h, fun h => ?_, rfl⟩
  refine mapGet_eq_none _ _ fun v hv => ?_
  rw [sweepUploads, List.mem_filter] at hv
  have := h v hv.1
  simpa [this] using hv.2

/-- Witness for C8's amended statement: an unissued id, and the stale record
after a sweep at TTL + 1 ms. -/
theorem c8_witness :
    resolveUpload "u2" staleUploads = none ∧
    resolveUpload "u1" (sweepUploads 7200001 staleUploads) = none :=
  ⟨(c8_upload_ttl "u2" staleUploads 7200001).1 (by
      intro v hv
      rw [staleUploads, List.mem_singleton] at hv
      have hfst : ("u2" : String) = "u1" := congrArg Prod.fst hv
      exact absurd hfst (by decide)),
   (c8_upload_ttl "u1" staleUploads 7200001).2.1 (by
      intro v hv
      rw [staleUploads, List.mem_singleton] at hv
      have hvrec : v = { path := "/tmp/stored_uploads/u1_a.mp4",
                         originalName := "a.mp4", createdAt := 0 } :=
        congrArg Prod.snd hv
      subst hvrec
      decide)⟩

/-! ### Registry updates (C10) -/

theorem mapGet_mapSet {α : Type} (k : String) (v : α) (m : List (String × α)) :
    mapGet k (mapSet k v m) = some v := by
  induction m with
  | nil => simp [mapSet, mapGet]
  | cons kv rest ih =>
    by_cases hk : kv.1 = k
    · simp [mapSet, mapGet, hk]
    · simp [mapSet, mapGet, hk, ih]

theorem keysOf_mapSet {α : Type} (k : String) (v : α) (m : List (String × α)) :
    keysOf (mapSet k v m) =
      if (mapGet k m).isSome then keysOf m else keysOf m ++ [k] := by
  induction m with
  | nil => simp [mapSet, mapGet, keysOf]
  | cons kv rest ih =>
    by_cases hk : kv.1 = k
    · simp [mapSet, mapGet, hk, keysOf]
    · by_cases hrest : (mapGet k rest).isSome
      · simp [mapSet, mapGet, hk, keysOf, hrest] at ih ⊢
        exact ih
      · simp [mapSet, mapGet, hk, keysOf, hrest] at ih ⊢
        exact ih

theorem keysOf_mapSet_present {α : Type} (k : String) (v : α)
    (m : List (String × α)) (h : (mapGet k m).isSome) :
    keysOf (mapSet k v m) = keysOf m := by
  rw [keysOf_mapSet, if_pos h]

theorem keysOf_setJob (jobId : String) (patch : JobPatch)
    (jobs : List (String × Job)) :
    keysOf (setJob jobId patch jobs) = keysOf jobs := by
  rw [setJob]
  cases h : mapGet jobId jobs with
  | none => rfl
  | some j => exact keysOf_mapSet_present _ _ _ (by simp [h])

theorem keysOf_foldl_setJob (jobId : String) (ps : List JobPatch)
    (jobs : List (String × Job)) :
    keysOf (ps.foldl (fun m p => setJob jobId p m) jobs) = keysOf jobs := by
  induction ps generalizing jobs with
  | nil => rfl
  | cons p ps ih => rw [List.foldl_cons, ih, keysOf_setJob]

theorem applyUpdate2_preserves (jobId : String) (m : List (String × JobObj2))
    (u : Update2) (h : (mapGet jobId m).isSome) :
    keysOf (applyUpdate2 jobId m u) = keysOf m ∧
      (mapGet jobId (applyUpdate2 jobId m u)).isSome := by
  cases u with
  | guarded p =>
    cases hg : mapGet jobId m with
    | none => simp [hg] at h
    | some j =>
      refine ⟨?_, ?_⟩
      · simpa [applyUpdate2, hg] using keysOf_mapSet_present _ _ _ h
      · simp [applyUpdate2, hg, mapGet_mapSet]
  | raw p =>
    refine ⟨?_, ?_⟩
    · simpa [applyUpdate2] using keysOf_mapSet_present _ _ _ h
    · simp [applyUpdate2, mapGet_mapSet]

theorem keysOf_foldl_applyUpdate2 (jobId : String) (us : List Update2)
    (m : List (String × JobObj2)) (h : (mapGet jobId m).isSome) :
    keysOf (us.foldl (applyUpdate2 jobId) m) = keysOf m := by
  induction us generalizing m with
  | nil => rfl
  | cons u us ih =>
    obtain ⟨hk, hs⟩ := applyUpdate2_preserves jobId m u h
    rw [List.foldl_cons, ih _ hs, hk]

/-- C10: a `setJob`/`setProgress` (and a `part_002` guarded write) against an
absent job id leaves the registry unchanged; every pipeline write preserves
the registry's key set (for `part_002` given the id is present, which job
creation establishes and nothing ever removes), and only the creation
endpoint's unconditional `jobs.set` can extend the key set, by exactly its
fresh id. -/
theorem c10_registry_growth (jobId : String) (patch : JobPatch)
    (jobs : List (String × Job)) :
    (mapGet jobId jobs = none → setJob jobId patch jobs = jobs) ∧
    keysOf (setJob jobId patch jobs) = keysOf jobs ∧
    (∀ pct step msg, mapGet jobId jobs = none →
      setProgress jobId pct step msg jobs = jobs) ∧
    (∀ env : PipelineEnv, keysOf (runProcessJob jobId env jobs) = keysOf jobs) ∧
    (∀ j : Job, keysOf (mapSet jobId j jobs) =
      if (mapGet jobId jobs).isSome then keysOf jobs else keysOf jobs ++ [jobId]) ∧
    (∀ (p : JobObj2) (m2 : List (String × JobObj2)), mapGet jobId m2 = none →
      applyUpdate2 jobId m2 (.guarded p) = m2) ∧
    (∀ (env2 : EnvP2) (m2 : List (String × JobObj2)), (mapGet jobId m2).isSome →
      keysOf (runProcessJobP2 jobId env2 m2) = keysOf m2) := by
  refine ⟨fun h => by rw [setJob, h], keysOf_setJob _ _ _,
    fun pct step msg h => by rw [setProgress, setJob, h],
    fun env => keysOf_foldl_setJob _ _ _,
    fun j => keysOf_mapSet _ _ _,
    fun p m2 h => by rw [applyUpdate2, h],
    fun env2 m2 h => keysOf_foldl_applyUpdate2 _ _ _ h⟩

/-- Witness for C10 on a concrete registry: id `"a"` absent, id `"j"`
present. -/
theorem c10_witness :
    (setJob "a" { status := some "done" } [("j", newJob "j" 0)] =
      [("j", newJob "j" 0)]) ∧
    (setProgress "a" 55 "upload" "msg" [("j", newJob "j" 0)] =
      [("j", newJob "j" 0)]) ∧
    keysOf (runProcessJob "j" extractFailEnv [("j", newJob "j" 0)]) = ["j"] ∧
    keysOf (mapSet "a" (newJob "a" 0) [("j", newJob "j" 0)]) = ["j", "a"] ∧
    applyUpdate2 "a" [("j", newJobObjP2 "j")] (.guarded { status := some "done" }) =
      [("j", newJobObjP2 "j")] ∧
    keysOf (runProcessJobP2 "j" okEnvP2 [("j", newJobObjP2 "j")]) = ["j"] := by
  have h := c10_registry_growth "a" { status := some "done" } [("j", newJob "j" 0)]
  have h2 := c10_registry_growth "j" { status := some "done" } [("j", newJob "j" 0)]
  refine ⟨h.1 (by decide), h.2.2.1 55 "upload" "msg" (by decide), ?_, ?_, ?_, ?_⟩
  · rw [h2.2.2.2.1 extractFailEnv]
    decide
  · rw [h.2.2.2.2.1 (newJob "a" 0)]
    decide
  · exact h.2.2.2.2.2.1 { status := some "done" } [("j", newJobObjP2 "j")] (by decide)
  · rw [h2.2.2.2.2.2.2 okEnvP2 [("j", newJobObjP2 "j")] (by decide)]
    decide

/-! ### Chunk-name ordering -/

theorem digitChar_toNat_lt {a b : Nat} (hab : a < b) (hb : b < 10) :
    (Nat.digitChar a).toNat < (Nat.digitChar b).toNat := by
  interval_cases b <;> interval_cases a <;> decide

theorem lexLtData_append_same (p a b : List Char) :
    lexLtData (p ++ a) (p ++ b) = lexLtData a b := by
  induction p with
  | nil => rfl
  | cons c cs ih => simp [lexLtData, ih]

theorem lexLtData_append_of_lt :
    ∀ {a b : List Char}, a.length = b.length → lexLtData a b = true →
      ∀ s t, lexLtData (a ++ s) (b ++ t) = true := by
  intro a
  induction a with
  | nil =>
    intro b hlen h s t
    cases b with
    | nil => simp [lexLtData] at h
    | cons d ds => simp at hlen
  | cons c cs ih =>
    intro b hlen h s t
    cases b with
    | nil => simp at hlen
    | cons d ds =>
      simp only [lexLtData, Bool.or_eq_true, Bool.and_eq_true, decide_eq_true_eq] at h
      rcases h with h | ⟨heq, hrec⟩
      · simp [lexLtData, h]
      · simp [lexLtData, heq, ih (by simpa using hlen) hrec s t]

theorem lexLtData_asymm :
    ∀ (a b : List Char), lexLtData a b = true → lexLtData b a = false := by
  intro a
  induction a with
  | nil =>
    intro b h
    cases b with
    | nil => simp [lexLtData] at h
    | cons d ds => rfl
  | cons c cs ih =>
    intro b h
    cases b with
    | nil => simp [lexLtData] at h
    | cons d ds =>
      simp only [lexLtData, Bool.or_eq_true, Bool.and_eq_true, decide_eq_true_eq] at h
      rcases h with h | ⟨heq, hrec⟩
      · have h1 : ¬ d.toNat < c.toNat := by omega
        have h2 : ¬ d.toNat = c.toNat := by omega
        simp [lexLtData, h1, h2]
      · simp [lexLtData, show d.toNat = c.toNat from heq.symm, ih ds hrec]

theorem pad3Data_lt {i j : Nat} (hij : i < j) (hj : j < 1000) :
    lexLtData (pad3Data i) (pad3Data j) = true := by
  have hi : i < 1000 := by omega
  rw [pad3Data, if_pos hi, pad3Data, if_pos hj]
  rcases Nat.lt_trichotomy (i / 100) (j / 100) with h1 | h1 | h1
  · simp [lexLtData, digitChar_toNat_lt h1 (by omega)]
  · rcases Nat.lt_trichotomy (i / 10 % 10) (j / 10 % 10) with h2 | h2 | h2
    · simp [lexLtData, h1, digitChar_toNat_lt h2 (by omega)]
    · have h3 : i % 10 < j % 10 := by omega
      simp [lexLtData, h1, h2, digitChar_toNat_lt h3 (by omega)]
    · omega
  · omega

theorem pad3Data_length_eq {i j : Nat} (hi : i < 1000) (hj : j < 1000) :
    (pad3Data i).length = (pad3Data j).length := by
  rw [pad3Data, if_pos hi, pad3Data, if_pos hj]
  rfl

theorem chunkNameData_lt {i j : Nat} (hij : i < j) (hj : j < 1000) :
    lexLtData (chunkNameData i) (chunkNameData j) = true := by
  rw [chunkNameData, chunkNameData, List.append_assoc, List.append_assoc,
    lexLtData_append_same]
  exact lexLtData_append_of_lt (pad3Data_length_eq (by omega) hj)
    (pad3Data_lt hij hj) _ _

theorem sortFiles_of_sorted_names {k : Nat} (hk : k ≤ 1000) :
    sortFiles ((List.range k).map chunkName) = (List.range k).map chunkName := by
  rw [sortFiles]
  apply List.mergeSort_of_sorted
  rw [List.pairwise_map]
  refine (List.pairwise_lt_range k).imp_of_mem fun {i j} hi hj hij => ?_
  have hj1000 : j < 1000 := lt_of_lt_of_le (List.mem_range.mp hj) hk
  have hlt := chunkNameData_lt hij hj1000
  show jsSortLe (chunkName i) (chunkName j) = true
  rw [jsSortLe]
  have : lexLtData (chunkName j).data (chunkName i).data = false :=
    lexLtData_asymm _ _ hlt
  rw [this]
  rfl

theorem chunkName_passes_filter (i : Nat) :
    (jsStartsWith (chunkName i) "chunk_" && jsEndsWith (chunkName i) ".mp3") = true := by
  apply Bool.and_eq_true_iff.mpr
  constructor
  · exact (strHasPrefixData_iff _ _).mpr
      (by rw [chunkName, chunkNameData]; exact List.prefix_append _ _)
  · apply (strHasPrefixData_iff _ _).mpr
    rw [chunkName, chunkNameData, List.append_assoc, List.reverse_append,
      List.reverse_append]
    exact List.prefix_append _ _

theorem splitAudioIntoChunks_ok (k : Nat) (hk1 : 1 ≤ k) (hk : k ≤ 1000) :
    splitAudioIntoChunks (.ok ()) k = .ok ((List.range k).map chunkName) := by
  have hfil : (((List.range k).map chunkName)).filter
      (fun f => jsStartsWith f "chunk_" && jsEndsWith f ".mp3") =
      (List.range k).map chunkName := by
    apply List.filter_eq_self.mpr
    intro a ha
    obtain ⟨i, _, rfl⟩ := List.mem_map.mp ha
    exact chunkName_passes_filter i
  have hlen : ((List.range k).map chunkName).length = k := by simp
  simp only [splitAudioIntoChunks, hfil, sortFiles_of_sorted_names hk, hlen]
  rw [if_neg (by omega)]

/-! ### Stitching (C2) -/

theorem chunkLoop_patches_ok (tr : String → String) (n : Nat) :
    ∀ (fs : List String) (i : Nat) (full : String),
      (chunkLoop (fun f => .ok (tr f)) n fs i full).1 =
        (List.range' i fs.length).map
          (fun t => progressPatch (pctChunk t n) "transcribe" (chunkMsg t n)) := by
  intro fs
  induction fs with
  | nil => intro i full; rfl
  | cons f fs ih =>
    intro i full
    rw [chunkLoop]
    simp only [List.length_cons, List.range'_succ, List.map_cons]
    rw [ih]

theorem chunkLoop_stitch (tr : String → String) (n : Nat) :
    ∀ (fs : List String) (i : Nat) (full : String), 1 ≤ i →
      (chunkLoop (fun f => .ok (tr f)) n fs i full).2 =
        .ok (fs.foldl (fun acc f => acc ++ "\n\n" ++ tr f) full) := by
  intro fs
  induction fs with
  | nil => intro i full _; rfl
  | cons f fs ih =>
    intro i full hi
    rw [chunkLoop]
    have h0 : ¬ i = 0 := by omega
    simp only [h0, if_false]
    exact ih (i + 1) _ (by omega)

theorem foldl_blankLineJoin (ts : List String) :
    ∀ t, ts.foldl (fun acc s => acc ++ "\n\n" ++ s) t = blankLineJoin (t :: ts) := by
  induction ts with
  | nil => intro t; rfl
  | cons s ss ih =>
    intro t
    rw [List.foldl_cons, ih (t ++ "\n\n" ++ s)]
    cases ss with
    | nil => rfl
    | cons s2 ss2 => simp [blankLineJoin, String.append_assoc]

theorem chunkLoop_top (tr : String → String) (n : Nat) (used : List String) :
    (chunkLoop (fun f => .ok (tr f)) n used 0 "").2 =
      .ok (blankLineJoin (used.map tr)) := by
  cases used with
  | nil => rfl
  | cons f fs =>
    rw [chunkLoop]
    rw [chunkLoop_stitch tr _ fs 1 _ (by omega)]
    have hacc : ("" ++ (if (0 : Nat) = 0 then "" else "\n\n")) ++ tr f = tr f := by
      simp
    rw [hacc, ← List.foldl_map tr (fun acc s => acc ++ "\n\n" ++ s) fs (tr f)]
    rw [foldl_blankLineJoin (fs.map tr) (tr f), List.map_cons]

/-- C2: the stitched text of the chunk-transcription loop is exactly the
ordered per-chunk transcripts joined by a blank line (`"\n\n"`), for any
number `n ≥ 1` of chunks; and the splitter's lexicographic sort of the
zero-padded chunk file names reproduces temporal (index) order. -/
theorem c2_stitched_concatenation (tr : String → String) (used : List String)
    (_h : used ≠ []) :
    (chunkLoop (fun f => .ok (tr f)) used.length used 0 "").2 =
      .ok (blankLineJoin (used.map tr)) ∧
    (∀ k, k ≤ 1000 →
      sortFiles ((List.range k).map chunkName) = (List.range k).map chunkName) :=
  ⟨chunkLoop_top tr used.length used, fun _ hk => sortFiles_of_sorted_names hk⟩

/-- Witness for C2 with two chunks and transcripts `"T " ++ name`. -/
theorem c2_witness :
    (chunkLoop (fun f => .ok ("T " ++ f)) (["chunk_000.mp3", "chunk_001.mp3"].length)
        ["chunk_000.mp3", "chunk_001.mp3"] 0 "").2 =
      .ok (blankLineJoin (["chunk_000.mp3", "chunk_001.mp3"].map (fun f => "T " ++ f))) ∧
    (∀ k, k ≤ 1000 →
      sortFiles ((List.range k).map chunkName) = (List.range k).map chunkName) :=
  c2_stitched_concatenation (fun f => "T " ++ f) ["chunk_000.mp3", "chunk_001.mp3"]
    (by simp)

/-! ### The chunk cap (C3) -/

theorem applyPatches_append (j : Job) (l1 l2 : List JobPatch) :
    applyPatches j (l1 ++ l2) = applyPatches (applyPatches j l1) l2 := by
  simp [applyPatches, List.foldl_append]

theorem names_take (k : Nat) :
    (((List.range k).map chunkName).take MAX_CHUNKS) =
      (List.range (min MAX_CHUNKS k)).map chunkName := by
  rw [← List.map_take, List.take_range]

/-- Explicit form of a fully successful chunked run: the probed duration is
601 s, `k` chunk files exist, every retained chunk transcribes to `tr` of its
name. -/
theorem processJobBody_chunked (tr : String → String) (k : Nat)
    (h1 : 1 ≤ k) (h2 : k ≤ 1000) :
    processJobBody (chunkedRunEnv tr k 601) =
      ([{ status := some "processing" },
        progressPatch 10 "extract" "Extracting audio from your video…",
        progressPatch 35 "chunk" "Splitting long audio into chunks…"] ++
       (List.range' 0 (min MAX_CHUNKS k)).map
         (fun t => progressPatch (pctChunk t (min MAX_CHUNKS k)) "transcribe"
            (chunkMsg t (min MAX_CHUNKS k))) ++
       [progressPatch 100 "done" "Done",
        { status := some "done",
          resultText := some
            (blankLineJoin ((List.range (min MAX_CHUNKS k)).map fun i => tr (chunkName i)) ++
             (if MAX_CHUNKS < k then truncationNotice else "")) }], .ok ()) := by
  have hd : durationBranch (some 601) = false := by decide
  have hsplit := splitAudioIntoChunks_ok k h1 h2
  have hlen : ((List.range k).map chunkName).length = k := by simp
  have hul : ((List.range (min MAX_CHUNKS k)).map chunkName).length = min MAX_CHUNKS k := by
    simp
  have hnotice : ∀ (c : Prop) (inst : Decidable c) (a b : String),
      (if c then a ++ b else a) = a ++ (if c then b else "") := by
    intro c inst a b
    by_cases hc : c <;> simp [hc]
  simp only [processJobBody, chunkedRunEnv, getDurationSeconds, hd,
    Bool.false_eq_true, if_false, hsplit, names_take, hul,
    chunkLoop_top tr (min MAX_CHUNKS k) ((List.range (min MAX_CHUNKS k)).map chunkName),
    chunkLoop_patches_ok tr (min MAX_CHUNKS k), hlen]
  rw [hnotice]
  simp [List.map_map, Function.comp_def, List.append_assoc]

/-- C3: a successful chunked run with `k` chunk files transcribes exactly
`min k 24` chunks (the first 24 in temporal order), its result text is their
ordered blank-line-joined transcripts, and the truncation notice is appended
exactly when `k > 24`. -/
theorem c3_chunk_cap (tr : String → String) (k : Nat) (h1 : 1 ≤ k) (h2 : k ≤ 1000) :
    (processJobFinal (chunkedRunEnv tr k 601) (newJob "j" 0)).resultText =
      blankLineJoin ((List.range (min k MAX_CHUNKS)).map fun i => tr (chunkName i)) ++
        (if MAX_CHUNKS < k then truncationNotice else "") ∧
    (processJobFinal (chunkedRunEnv tr k 601) (newJob "j" 0)).status = "done" ∧
    (processJobPatches (chunkedRunEnv tr k 601)).countP
        (fun p => (patchStep p).any (· == "transcribe")) = min k MAX_CHUNKS := by
  have hbody := processJobBody_chunked tr k h1 h2
  have hpatches : processJobPatches (chunkedRunEnv tr k 601) =
      ([{ status := some "processing" },
        progressPatch 10 "extract" "Extracting audio from your video…",
        progressPatch 35 "chunk" "Splitting long audio into chunks…"] ++
       (List.range' 0 (min MAX_CHUNKS k)).map
         (fun t => progressPatch (pctChunk t (min MAX_CHUNKS k)) "transcribe"
            (chunkMsg t (min MAX_CHUNKS k))) ++
       [progressPatch 100 "done" "Done",
        { status := some "done",
          resultText := some
            (blankLineJoin ((List.range (min MAX_CHUNKS k)).map fun i => tr (chunkName i)) ++
             (if MAX_CHUNKS < k then truncationNotice else "")) }]) := by
    rw [processJobPatches, hbody]
  rw [Nat.min_comm k MAX_CHUNKS]
  refine ⟨?_, ?_, ?_⟩
  · rw [processJobFinal, hpatches, applyPatches_append, applyPatches_append]
    simp [applyPatches, applyPatch]
  · rw [processJobFinal, hpatches, applyPatches_append, applyPatches_append]
    simp [applyPatches, applyPatch]
  · have hall : ∀ p ∈ (List.range' 0 (min MAX_CHUNKS k)).map
        (fun t => progressPatch (pctChunk t (min MAX_CHUNKS k)) "transcribe"
          (chunkMsg t (min MAX_CHUNKS k))),
        ((patchStep p).any (· == "transcribe")) = true := by
      intro p hp
      obtain ⟨t, _, rfl⟩ := List.mem_map.mp hp
      simp [patchStep, progressPatch]
    rw [hpatches, List.countP_append, List.countP_append,
      List.countP_eq_length.mpr hall, List.length_map, List.length_range']
    simp [patchStep, progressPatch]

/-- Witness for C3 at `k = 25` chunk files (cap 24, notice appended) with
transcripts `"T " ++ name`. -/
theorem c3_witness :
    (processJobFinal (chunkedRunEnv (fun f => "T " ++ f) 25 601) (newJob "j" 0)).resultText =
      blankLineJoin ((List.range (min 25 MAX_CHUNKS)).map
          fun i => ("T " ++ chunkName i)) ++
        (if MAX_CHUNKS < 25 then truncationNotice else "") ∧
    (processJobFinal (chunkedRunEnv (fun f => "T " ++ f) 25 601) (newJob "j" 0)).status =
      "done" ∧
    (processJobPatches (chunkedRunEnv (fun f => "T " ++ f) 25 601)).countP
        (fun p => (patchStep p).any (· == "transcribe")) = min 25 MAX_CHUNKS :=
  c3_chunk_cap (fun f => "T " ++ f) 25 (by decide) (by decide)

/-! ### The duration branch (C1) -/

theorem durationBranch_iff (d : ℚ) : durationBranch (some d) = true ↔ d ≤ 600 := by
  rw [durationBranch]
  simp only [Bool.or_eq_true, decide_eq_true_eq]
  constructor
  · rintro (rfl | h)
    · norm_num
    · exact h
  · exact fun h => Or.inr h

/-- C1: with a known probed duration `d`, the branch condition accepts the
single-file path exactly when `d ≤ 600` (600 itself included), and the run's
trace enters the chunked path (`"chunk"` stage) exactly when `600 < d`; when
`d ≤ 600` it enters the single-file upload stage instead. -/
theorem c1_duration_threshold (env : PipelineEnv) (d : ℚ)
    (hex : env.extract = .ok ())
    (hpr : getDurationSeconds env.ffprobeRun env.parseNum = .ok (some d)) :
    (durationBranch (some d) = true ↔ d ≤ 600) ∧
    (hasStep "chunk" (processJobPatches env) = true ↔ 600 < d) ∧
    (d ≤ 600 → hasStep "upload" (processJobPatches env) = true) ∧
    durationBranch (some 600) = true := by
  by_cases hd : d ≤ 600
  · have hdb : durationBranch (some d) = true := (durationBranch_iff d).mpr hd
    have hch : hasStep "chunk" (processJobPatches env) = false := by
      cases htw : env.transcribeWhole with
      | error e =>
        simp [processJobPatches, processJobBody, hex, hpr, hdb, htw, hasStep,
          patchStep, progressPatch]
      | ok t =>
        simp [processJobPatches, processJobBody, hex, hpr, hdb, htw, hasStep,
          patchStep, progressPatch]
    have hup : hasStep "upload" (processJobPatches env) = true := by
      cases htw : env.transcribeWhole with
      | error e =>
        simp [processJobPatches, processJobBody, hex, hpr, hdb, htw, hasStep,
          patchStep, progressPatch]
      | ok t =>
        simp [processJobPatches, processJobBody, hex, hpr, hdb, htw, hasStep,
          patchStep, progressPatch]
    refine ⟨durationBranch_iff d, ?_, fun _ => hup, by decide⟩
    rw [hch]
    simp only [Bool.false_eq_true, false_iff, not_lt]
    exact hd
  · have hdb : durationBranch (some d) = false := by
      cases hv : durationBranch (some d)
      · rfl
      · exact absurd ((durationBranch_iff d).mp hv) hd
    have hch : hasStep "chunk" (processJobPatches env) = true := by
      simp only [processJobPatches, processJobBody, hex, hpr, hdb,
        Bool.false_eq_true, if_false, List.length_take]
      cases hsp : splitAudioIntoChunks env.ffmpegSegment env.numChunkFiles with
      | error e => simp [hasStep, patchStep, progressPatch]
      | ok files =>
        cases hr : (chunkLoop env.transcribeChunk (min MAX_CHUNKS files.length)
            (files.take MAX_CHUNKS) 0 "").2 with
        | error e => simp [hasStep, patchStep, progressPatch, hr]
        | ok full => simp [hasStep, patchStep, progressPatch, hr]
    refine ⟨durationBranch_iff d, ?_, fun hle => absurd hle hd, by decide⟩
    rw [hch]
    simp only [true_iff]
    exact lt_of_not_ge hd

/-- Witness for C1 at `d = 601` (chunked) — the other branch is exercised by
the probe environments of C5. -/
theorem c1_witness :
    (durationBranch (some 601) = true ↔ (601 : ℚ) ≤ 600) ∧
    (hasStep "chunk" (processJobPatches (chunkedRunEnv (fun f => "T " ++ f) 3 601)) =
      true ↔ (600 : ℚ) < 601) ∧
    ((601 : ℚ) ≤ 600 →
      hasStep "upload" (processJobPatches (chunkedRunEnv (fun f => "T " ++ f) 3 601)) =
        true) ∧
    durationBranch (some 600) = true :=
  c1_duration_threshold (chunkedRunEnv (fun f => "T " ++ f) 3 601) 601 rfl rfl

/-! ### Probe failure (C5) and the error transition (C6) -/

/-- The terminal fields of the final job record, by pipeline outcome: a
normal return ends `done`, a throw ends `error` carrying the thrown text —
and these are the only ways a run ends. -/
theorem processJob_status (env : PipelineEnv) (j : Job) :
    ((processJobBody env).2 = .ok () → (processJobFinal env j).status = "done") ∧
    (∀ e, (processJobBody env).2 = .error e →
      (processJobFinal env j).status = "error" ∧ (processJobFinal env j).error = e) := by
  cases hex : env.extract with
  | error e0 =>
    constructor
    · intro h
      simp [processJobBody, hex] at h
    · intro e he
      simp [processJobBody, hex] at he
      subst he
      simp [processJobFinal, processJobPatches, processJobBody, hex,
        applyPatches, applyPatch]
  | ok u =>
    cases hpr : getDurationSeconds env.ffprobeRun env.parseNum with
    | error e0 =>
      constructor
      · intro h
        simp [processJobBody, hex, hpr] at h
      · intro e he
        simp [processJobBody, hex, hpr] at he
        subst he
        simp [processJobFinal, processJobPatches, processJobBody, hex, hpr,
          applyPatches, applyPatch]
    | ok dur =>
      cases hdb : durationBranch dur with
      | true =>
        cases htw : env.transcribeWhole with
        | error e0 =>
          constructor
          · intro h
            simp [processJobBody, hex, hpr, hdb, htw] at h
          · intro e he
            simp [processJobBody, hex, hpr, hdb, htw] at he
            subst he
            simp [processJobFinal, processJobPatches, processJobBody, hex, hpr,
              hdb, htw, applyPatches, applyPatch]
        | ok text =>
          constructor
          · intro _
            simp [processJobFinal, processJobPatches, processJobBody, hex, hpr,
              hdb, htw, applyPatches, applyPatch, List.foldl_append]
          · intro e he
            simp [processJobBody, hex, hpr, hdb, htw] at he
      | false =>
        cases hsp : splitAudioIntoChunks env.ffmpegSegment env.numChunkFiles with
        | error e0 =>
          constructor
          · intro h
            simp [processJobBody, hex, hpr, hdb, hsp] at h
          · intro e he
            simp [processJobBody, hex, hpr, hdb, hsp] at he
            subst he
            simp [processJobFinal, processJobPatches, processJobBody, hex, hpr,
              hdb, hsp, applyPatches, applyPatch, List.foldl_append]
        | ok files =>
          cases hr : (chunkLoop env.transcribeChunk (min MAX_CHUNKS files.length)
              (files.take MAX_CHUNKS) 0 "").2 with
          | error e0 =>
            constructor
            · intro h
              simp [processJobBody, hex, hpr, hdb, hsp, hr] at h
            · intro e he
              simp [processJobBody, hex, hpr, hdb, hsp, hr] at he
              subst he
              simp [processJobFinal, processJobPatches, processJobBody, hex, hpr,
                hdb, hsp, hr, applyPatches, applyPatch, List.foldl_append]
          | ok full =>
            constructor
            · intro _
              simp [processJobFinal, processJobPatches, processJobBody, hex, hpr,
                hdb, hsp, hr, applyPatches, applyPatch, List.foldl_append]
            · intro e he
              simp [processJobBody, hex, hpr, hdb, hsp, hr] at he

/-- C5 (corrected): if the `ffprobe` invocation itself errors, the exception
is not swallowed — the job transitions to `error` and the single-file path is
not taken, contradicting the claim that a probe failure leaves the job
running with an unknown duration. -/
theorem c5_counterexample :
    (processJobFinal probeFailEnv (newJob "j" 0)).status = "error" ∧
    (processJobFinal probeFailEnv (newJob "j" 0)).error = "ffprobe exited with code 1" ∧
    hasStep "upload" (processJobPatches probeFailEnv) = false := by
  exact ⟨rfl, rfl, rfl⟩

/-- C5 (amended): only an unparsable probe *output* (duration `null`) is
treated as unknown and falls back to the single-file path; a failing probe
*process* throws, and the job transitions to `error` with that detail. -/
theorem c5_probe_failure (env : PipelineEnv) (j : Job) :
    (∀ s, env.extract = .ok () → env.ffprobeRun = .ok s → env.parseNum s = none →
      hasStep "upload" (processJobPatches env) = true ∧
      hasStep "chunk" (processJobPatches env) = false) ∧
    (∀ e, env.extract = .ok () → env.ffprobeRun = .error e →
      (processJobFinal env j).status = "error" ∧ (processJobFinal env j).error = e) := by
  constructor
  · intro s hex hrun hparse
    have hpr : getDurationSeconds env.ffprobeRun env.parseNum = .ok none := by
      simp [getDurationSeconds, hrun, hparse]
    have hdb : durationBranch none = true := rfl
    constructor
    · cases htw : env.transcribeWhole with
      | error e =>
        simp [processJobPatches, processJobBody, hex, hpr, hdb, htw, hasStep,
          patchStep, progressPatch]
      | ok t =>
        simp [processJobPatches, processJobBody, hex, hpr, hdb, htw, hasStep,
          patchStep, progressPatch]
    · cases htw : env.transcribeWhole with
      | error e =>
        simp [processJobPatches, processJobBody, hex, hpr, hdb, htw, hasStep,
          patchStep, progressPatch]
      | ok t =>
        simp [processJobPatches, processJobBody, hex, hpr, hdb, htw, hasStep,
          patchStep, progressPatch]
  · intro e hex hrun
    have he : (processJobBody env).2 = .error e := by
      simp [processJobBody, hex, getDurationSeconds, hrun]
    exact (processJob_status env j).2 e he

/-- Witness for C5: unparsable probe output takes the single-file path; a
probe process failure errors the job. -/
theorem c5_witness :
    (hasStep "upload" (processJobPatches probeNaNEnv) = true ∧
     hasStep "chunk" (processJobPatches probeNaNEnv) = false) ∧
    ((processJobFinal probeFailEnv (newJob "j" 0)).status = "error" ∧
     (processJobFinal probeFailEnv (newJob "j" 0)).error =
       "ffprobe exited with code 1") :=
  ⟨(c5_probe_failure probeNaNEnv (newJob "j" 0)).1 "N/A" rfl rfl rfl,
   (c5_probe_failure probeFailEnv (newJob "j" 0)).2 "ffprobe exited with code 1"
     rfl rfl⟩

/-- C6 (corrected): in `part_003` a failing extraction errors the job but the
progress record keeps its last value — pct 10 and the extraction message, not
pct 0 with an error message as the claim states. -/
theorem c6_counterexample :
    (processJobFinal extractFailEnv (newJob "j" 0)).status = "error" ∧
    (processJobFinal extractFailEnv (newJob "j" 0)).error = "ffmpeg exited with code 1" ∧
    (processJobFinal extractFailEnv (newJob "j" 0)).progress.pct = 10 ∧
    ¬ (processJobFinal extractFailEnv (newJob "j" 0)).progress.pct = 0 ∧
    (processJobFinal extractFailEnv (newJob "j" 0)).progress.message =
      "Extracting audio from your video…" := by
  refine ⟨rfl, rfl, by decide, by decide, rfl⟩

theorem mapGet_applyUpdate2_raw (jobId : String) (m : List (String × JobObj2))
    (p : JobObj2) :
    mapGet jobId (applyUpdate2 jobId m (.raw p)) =
      some (spreadMerge2 ((mapGet jobId m).getD {}) p) := by
  simp [applyUpdate2, mapGet_mapSet]

/-- C6 (amended): an exception at any stage after the job is marked
processing transitions it to `error` with the exception text as the detail,
and a throw is the only path to `error`; in `part_003` the progress record is
left at its last value, while in `part_002` the catch additionally resets
progress to `{ pct: 0, message: "Error" }`. -/
theorem c6_error_transition (env : PipelineEnv) (env2 : EnvP2) (j : Job)
    (jobId : String) (m2 : List (String × JobObj2)) :
    (∀ e, (processJobBody env).2 = .error e →
      (processJobFinal env j).status = "error" ∧ (processJobFinal env j).error = e) ∧
    ((processJobBody env).2 = .ok () → (processJobFinal env j).status = "done") ∧
    ((processJobFinal env j).status = "error" ↔
      ∃ e, (processJobBody env).2 = .error e) ∧
    (∀ e, pipelineErrP2 env2 = some e →
      ∃ obj, mapGet jobId (runProcessJobP2 jobId env2 m2) = some obj ∧
        obj.status = some "error" ∧ obj.error = some e ∧
        obj.progress = some ⟨0, "Error"⟩) := by
  have hst := processJob_status env j
  refine ⟨hst.2, hst.1, ?_, ?_⟩
  · constructor
    · intro herr
      cases hout : (processJobBody env).2 with
      | error e => exact ⟨e, rfl⟩
      | ok u =>
        cases u
        have := hst.1 hout
        rw [this] at herr
        exact absurd herr (by decide)
    · rintro ⟨e, he⟩
      exact (hst.2 e he).1
  · intro e he
    cases hex : env2.extract with
    | error e0 =>
      have he0 : e0 = e := by
        rw [pipelineErrP2, hex] at he
        exact Option.some_injective _ he
      subst he0
      rw [runProcessJobP2, processJobUpdatesP2, hex]
      simp only [List.cons_append, List.nil_append, List.foldl_cons,
        List.foldl_nil, errUpdate2]
      exact ⟨_, mapGet_applyUpdate2_raw jobId _ _, by simp [spreadMerge2],
        by simp [spreadMerge2], by simp [spreadMerge2]⟩
    | ok u =>
      cases htr : env2.transcribe with
      | error e0 =>
        have he0 : e0 = e := by
          rw [pipelineErrP2, hex, htr] at he
          exact Option.some_injective _ he
        subst he0
        rw [runProcessJobP2, processJobUpdatesP2, hex, htr]
        simp only [List.cons_append, List.nil_append, List.append_assoc,
          List.foldl_cons, List.foldl_nil, List.foldl_append, errUpdate2]
        exact ⟨_, mapGet_applyUpdate2_raw jobId _ _, by simp [spreadMerge2],
          by simp [spreadMerge2], by simp [spreadMerge2]⟩
      | ok text =>
        rw [pipelineErrP2, hex, htr] at he
        exact absurd he (by simp)

/-- Witness for C6: a failing `part_003` extraction, a successful `part_003`
run, and a failing `part_002` extraction against a one-job registry. -/
theorem c6_witness :
    ((processJobFinal extractFailEnv (newJob "j" 0)).status = "error" ∧
     (processJobFinal extractFailEnv (newJob "j" 0)).error =
       "ffmpeg exited with code 1") ∧
    ((processJobFinal probeNaNEnv (newJob "j" 0)).status = "done") ∧
    (∃ obj, mapGet "j" (runProcessJobP2 "j" extractFailEnvP2
        [("j", newJobObjP2 "j")]) = some obj ∧
      obj.status = some "error" ∧ obj.error = some "boom" ∧
      obj.progress = some ⟨0, "Error"⟩) :=
  ⟨(c6_error_transition extractFailEnv extractFailEnvP2 (newJob "j" 0) "j"
      [("j", newJobObjP2 "j")]).1 "ffmpeg exited with code 1" rfl,
   (c6_error_transition probeNaNEnv extractFailEnvP2 (newJob "j" 0) "j"
      [("j", newJobObjP2 "j")]).2.1 rfl,
   (c6_error_transition extractFailEnv extractFailEnvP2 (newJob "j" 0) "j"
      [("j", newJobObjP2 "j")]).2.2.2 "boom" rfl⟩

/-! ### Progress monotonicity (C7) -/

/-- C7 (corrected): in `part_002` an error resets progress to 0, so a job
failing after the 10 % extraction update shows the observable pct sequence
`0, 10, 0`, which is not monotonically non-decreasing. -/
theorem c7_counterexample :
    ¬ List.Pairwise (· ≤ ·)
      ((0 : ℚ) :: pctTraceP2 (processJobUpdatesP2 extractFailEnvP2)) := by
  intro h
  have h10 : (10 : ℚ) ≤ 0 := by
    have := List.pairwise_cons.mp (List.pairwise_cons.mp h).2
    exact this.1 0 (by simp [pctTraceP2, processJobUpdatesP2, extractFailEnvP2,
      errUpdate2])
  norm_num at h10

theorem jsRound_mono {a b : ℚ} (h : a ≤ b) : jsRound a ≤ jsRound b :=
  Int.floor_mono (by linarith)

theorem pctChunk_mono {i j n : Nat} (hij : i ≤ j) : pctChunk i n ≤ pctChunk j n := by
  rw [pctChunk, pctChunk]
  have hdiv : ((i : ℚ) / n) ≤ (j : ℚ) / n := by
    rcases Nat.eq_zero_or_pos n with hn | hn
    · simp [hn]
    · have hnq : (0 : ℚ) < n := by exact_mod_cast hn
      exact (div_le_div_iff_of_pos_right hnq).mpr (by exact_mod_cast hij)
  have hr := jsRound_mono (show 40 * ((i : ℚ) / n) ≤ 40 * ((j : ℚ) / n) by linarith)
  have hrq : (jsRound (40 * ((i : ℚ) / n)) : ℚ) ≤ jsRound (40 * ((j : ℚ) / n)) := by
    exact_mod_cast hr
  linarith

theorem pctChunk_ge_55 (i n : Nat) : 55 ≤ pctChunk i n := by
  rw [pctChunk]
  have hq : (0 : ℚ) ≤ 40 * ((i : ℚ) / n) := by positivity
  have h0 : (0 : ℤ) ≤ jsRound (40 * ((i : ℚ) / n)) := by
    rw [jsRound]
    apply Int.le_floor.mpr
    push_cast
    linarith
  have h0q : (0 : ℚ) ≤ (jsRound (40 * ((i : ℚ) / n)) : ℚ) := by exact_mod_cast h0
  linarith

theorem pctChunk_le_95 {i n : Nat} (h : i < n) : pctChunk i n ≤ 95 := by
  rw [pctChunk]
  have hn0 : 0 < n := by omega
  have hn : (0 : ℚ) < n := by exact_mod_cast hn0
  have hq : (i : ℚ) / n < 1 := (div_lt_one hn).mpr (by exact_mod_cast h)
  have hfl : jsRound (40 * ((i : ℚ) / n)) < 41 := by
    rw [jsRound]
    apply Int.floor_lt.mpr
    push_cast
    linarith
  have h40 : jsRound (40 * ((i : ℚ) / n)) ≤ 40 := by omega
  have h40q : (jsRound (40 * ((i : ℚ) / n)) : ℚ) ≤ 40 := by exact_mod_cast h40
  linarith

theorem chunkLoop_pcts (tc : String → Except String String) (n : Nat) :
    ∀ (fs : List String) (i : Nat) (full : String),
      ∃ m, m ≤ fs.length ∧
        pctTrace (chunkLoop tc n fs i full).1 =
          (List.range' i m).map (fun t => pctChunk t n) := by
  intro fs
  induction fs with
  | nil => exact fun i full => ⟨0, by simp, by simp [chunkLoop, pctTrace]⟩
  | cons f fs ih =>
    intro i full
    cases htc : tc f with
    | error e =>
      refine ⟨1, by simp, ?_⟩
      simp [chunkLoop, htc, pctTrace, progressPatch, List.range'_succ]
    | ok part =>
      obtain ⟨m, hm, heq⟩ := ih (i + 1)
        (full ++ (if i = 0 then "" else "\n\n") ++ part)
      refine ⟨m + 1, by simpa using Nat.add_le_add_right hm 1, ?_⟩
      simp [chunkLoop, htc, pctTrace, progressPatch, List.range'_succ] at heq ⊢
      exact heq

/-- Elements of a chunk-progress trace lie in `[55, 95]`. -/
theorem chunk_trace_bounds {n m : Nat} (hm : m ≤ n) :
    ∀ x ∈ (List.range' 0 m).map (fun t => pctChunk t n), 55 ≤ x ∧ x ≤ 95 := by
  intro x hx
  obtain ⟨t, ht, rfl⟩ := List.mem_map.mp hx
  have htm : t < m := by
    have := List.mem_range'_1.mp ht
    omega
  exact ⟨pctChunk_ge_55 t n, pctChunk_le_95 (lt_of_lt_of_le htm hm)⟩

theorem pairwise_pctChunk (n m i : Nat) :
    List.Pairwise (· ≤ ·) ((List.range' i m).map (fun t => pctChunk t n)) := by
  rw [List.pairwise_map]
  exact (List.pairwise_lt_range' i m).imp fun h => pctChunk_mono (le_of_lt h)

theorem pairwise_chunk_trace_core {n m : Nat} (hm : m ≤ n) (tail : List ℚ)
    (htail : ∀ y ∈ tail, (95 : ℚ) ≤ y ∧ (0 : ℚ) ≤ y ∧ (10 : ℚ) ≤ y ∧ (35 : ℚ) ≤ y)
    (hptail : List.Pairwise (· ≤ ·) tail) :
    List.Pairwise (· ≤ ·)
      ((0 : ℚ) :: 10 :: 35 :: (((List.range' 0 m).map (fun t => pctChunk t n)) ++ tail)) := by
  have hb := chunk_trace_bounds hm
  refine List.pairwise_cons.mpr ⟨?_, List.pairwise_cons.mpr ⟨?_,
    List.pairwise_cons.mpr ⟨?_, ?_⟩⟩⟩
  · intro b hb2
    rcases List.mem_cons.mp hb2 with rfl | hb3
    · norm_num
    rcases List.mem_cons.mp hb3 with rfl | hb4
    · norm_num
    rcases List.mem_append.mp hb4 with hc | hT
    · linarith [(hb _ hc).1]
    · exact (htail _ hT).2.1
  · intro b hb2
    rcases List.mem_cons.mp hb2 with rfl | hb3
    · norm_num
    rcases List.mem_append.mp hb3 with hc | hT
    · linarith [(hb _ hc).1]
    · exact (htail _ hT).2.2.1
  · intro b hb2
    rcases List.mem_append.mp hb2 with hc | hT
    · linarith [(hb _ hc).1]
    · exact (htail _ hT).2.2.2
  · refine List.pairwise_append.mpr ⟨pairwise_pctChunk n m 0, hptail, ?_⟩
    intro x hx y hy
    linarith [(hb _ hx).2, (htail _ hy).1]

theorem pairwise_chunk_trace_nil {n m : Nat} (hm : m ≤ n) :
    List.Pairwise (· ≤ ·)
      ((0 : ℚ) :: 10 :: 35 :: ((List.range' 0 m).map (fun t => pctChunk t n))) := by
  have := pairwise_chunk_trace_core hm [] (by simp) (by simp)
  simpa using this

theorem pairwise_chunk_trace_100 {n m : Nat} (hm : m ≤ n) :
    List.Pairwise (· ≤ ·)
      ((0 : ℚ) :: 10 :: 35 :: (((List.range' 0 m).map (fun t => pctChunk t n)) ++ [100])) := by
  refine pairwise_chunk_trace_core hm [100] ?_ (by simp)
  intro y hy
  rw [List.mem_singleton] at hy
  subst hy
  norm_num

theorem splitAudioIntoChunks_ok_nonempty {r : Except String Unit} {k : Nat}
    {files : List String} (h : splitAudioIntoChunks r k = .ok files) :
    1 ≤ files.length := by
  cases r with
  | error e => simp [splitAudioIntoChunks] at h
  | ok u =>
    rw [splitAudioIntoChunks] at h
    split at h
    · simp at h
    · rename_i hz
      have hfe : files = sortFiles (((List.range k).map chunkName).filter
          fun f => jsStartsWith f "chunk_" && jsEndsWith f ".mp3") :=
        ((Except.ok.injEq _ _).mp h).symm
      subst hfe
      omega

/-- C7 (amended): in `part_003` the observable progress percentages are
monotonically non-decreasing on every path (the catch block leaves progress
at its last value); in `part_002` they are monotone exactly on the runs that
do not error (an error resets progress to 0). -/
theorem c7_progress_monotone (env : PipelineEnv) (env2 : EnvP2)
    (h2 : pipelineErrP2 env2 = none) :
    List.Pairwise (· ≤ ·) ((0 : ℚ) :: pctTrace (processJobPatches env)) ∧
    List.Pairwise (· ≤ ·) ((0 : ℚ) :: pctTraceP2 (processJobUpdatesP2 env2)) := by
  have p1 : List.Pairwise (· ≤ ·) [(0 : ℚ), 10] := by
    norm_num [List.pairwise_cons]
  have p2 : List.Pairwise (· ≤ ·) [(0 : ℚ), 10, 55] := by
    norm_num [List.pairwise_cons]
  have p3 : List.Pairwise (· ≤ ·) [(0 : ℚ), 10, 55, 100] := by
    norm_num [List.pairwise_cons]
  have p4 : List.Pairwise (· ≤ ·) [(0 : ℚ), 10, 35] := by
    norm_num [List.pairwise_cons]
  constructor
  · cases hex : env.extract with
    | error e =>
      simp [processJobPatches, processJobBody, hex, pctTrace, progressPatch]
    | ok u =>
      cases hpr : getDurationSeconds env.ffprobeRun env.parseNum with
      | error e =>
        simp [processJobPatches, processJobBody, hex, hpr, pctTrace,
          progressPatch]
      | ok dur =>
        cases hdb : durationBranch dur with
        | true =>
          cases htw : env.transcribeWhole with
          | error e =>
            simpa [processJobPatches, processJobBody, hex, hpr, hdb, htw,
              pctTrace, progressPatch] using p2
          | ok text =>
            simpa [processJobPatches, processJobBody, hex, hpr, hdb, htw,
              pctTrace, progressPatch] using p3
        | false =>
          cases hsp : splitAudioIntoChunks env.ffmpegSegment env.numChunkFiles with
          | error e =>
            simpa [processJobPatches, processJobBody, hex, hpr, hdb, hsp,
              pctTrace, progressPatch] using p4
          | ok files =>
            obtain ⟨m, hm, hpcts⟩ := chunkLoop_pcts env.transcribeChunk
              (min MAX_CHUNKS files.length) (files.take MAX_CHUNKS) 0 ""
            rw [List.length_take] at hm
            rw [pctTrace] at hpcts
            cases hr : (chunkLoop env.transcribeChunk (min MAX_CHUNKS files.length)
                (files.take MAX_CHUNKS) 0 "").2 with
            | error e =>
              have htrace : pctTrace (processJobPatches env) =
                  10 :: 35 :: ((List.range' 0 m).map
                    (fun t => pctChunk t (min MAX_CHUNKS files.length))) := by
                simp [processJobPatches, processJobBody, hex, hpr, hdb, hsp, hr,
                  pctTrace, progressPatch, hpcts]
              rw [htrace]
              exact pairwise_chunk_trace_nil hm
            | ok full =>
              have htrace : pctTrace (processJobPatches env) =
                  10 :: 35 :: (((List.range' 0 m).map
                    (fun t => pctChunk t (min MAX_CHUNKS files.length))) ++ [100]) := by
                simp [processJobPatches, processJobBody, hex, hpr, hdb, hsp, hr,
                  pctTrace, progressPatch, hpcts]
              rw [htrace]
              exact pairwise_chunk_trace_100 hm
  · cases hx : env2.extract with
    | error e =>
      rw [pipelineErrP2, hx] at h2
      exact absurd h2 (by simp)
    | ok u =>
      cases ht : env2.transcribe with
      | error e =>
        rw [pipelineErrP2, hx, ht] at h2
        exact absurd h2 (by simp)
      | ok text =>
        simpa [processJobUpdatesP2, hx, ht, pctTraceP2] using p3

/-- Witness for C7's amended statement: a chunked `part_003` run with 3
chunks, and an error-free `part_002` run. -/
theorem c7_witness :
    List.Pairwise (· ≤ ·)
      ((0 : ℚ) :: pctTrace (processJobPatches (chunkedRunEnv (fun f => "T " ++ f) 3 601))) ∧
    List.Pairwise (· ≤ ·) ((0 : ℚ) :: pctTraceP2 (processJobUpdatesP2 okEnvP2)) :=
  c7_progress_monotone (chunkedRunEnv (fun f => "T " ++ f) 3 601) okEnvP2 rfl

end VTB
